import Mathlib

/-!
Verification of the CTC decoder core of SenseVoice.cpp
(`sense-voice/csrc/sense-voice-decoder.cc`).

The development shallowly embeds the decoder source:
tensors are modelled over exact integer arithmetic (`ℤ`) so that the
numerical claims about the matrix-multiplication splitting strategy are
about summation identities, independent of floating-point rounding;
graph construction is modelled as building an expression tree whose
post-order op-node list corresponds to the `ggml` graph node list;
the external execution engine (backend scheduler, kernels) is modelled
at its interface: outcomes of allocation and execution are inputs of
the decode step, and the arg-max kernel is given its documented
first-maximum semantics.
-/

namespace SV

/-- A (up to) 3-dimensional tensor value over exact arithmetic.
`data` is total; only indices below the `ne` bounds are meaningful. -/
@[ext]
structure Tensor where
  ne0 : Nat
  ne1 : Nat
  ne2 : Nat
  data : Nat → Nat → Nat → ℤ

/-- Graph expressions: the `ggml` operations the decoder builds.
`leaf` is a source tensor (graph input or model parameter); the other
constructors are the graph ops appearing in `sense-voice-decoder.cc`:
`ggml_mul_mat`, `ggml_add`, `ggml_soft_max`, `ggml_argmax`, and
`ggml_view_3d` (with the element offset along dimension 0, as used by
`ggml_mul_mat_pad` where the byte offset is `ne[0] * nb[0]`). -/
inductive GExpr where
  | leaf (t : Tensor)
  | mulMat (a b : GExpr)
  | add (a b : GExpr)
  | softMax (a : GExpr)
  | argmax (a : GExpr)
  | view3d (a : GExpr) (ne0 ne1 ne2 off : Nat)

/-- Dimension 1 (`t->ne[1]`) of the tensor an expression denotes.
`ggml_mul_mat(a,b)` contracts dimension 0 and yields `[a.ne1, b.ne1, b.ne2]`;
`ggml_argmax` yields a 1-d tensor of length `src->ne[1]`. -/
def GExpr.ne1 : GExpr → Nat
  | .leaf t => t.ne1
  | .mulMat _ b => b.ne1
  | .add a _ => a.ne1
  | .softMax a => a.ne1
  | .argmax _ => 1
  | .view3d _ _ n _ _ => n

/-- Dimension 2 (`t->ne[2]`). -/
def GExpr.ne2 : GExpr → Nat
  | .leaf t => t.ne2
  | .mulMat _ b => b.ne2
  | .add a _ => a.ne2
  | .softMax a => a.ne2
  | .argmax _ => 1
  | .view3d _ _ _ n _ => n

/-- Dimension 0 (`t->ne[0]`). -/
def GExpr.ne0 : GExpr → Nat
  | .leaf t => t.ne0
  | .mulMat a _ => a.ne1
  | .add a _ => a.ne0
  | .softMax a => a.ne0
  | .argmax a => a.ne1
  | .view3d _ n _ _ _ => n

/-- Element count of the denoted tensor (`ggml_nelements`). -/
def GExpr.nelements (e : GExpr) : Nat := e.ne0 * e.ne1 * e.ne2

/-- Exact-arithmetic evaluation of the arithmetic graph ops.
`mulMat` is the `ggml_mul_mat` contraction over dimension 0:
`Z[i,j,k] = Σ_c A[c,i,k] * B[c,j,k]`; `add` is elementwise; `view3d`
re-indexes dimension 0 by the element offset, keeping the operand's
row strides as the source passes `x->nb[1], x->nb[2]` unchanged.
`softMax`/`argmax` are executed by external backend kernels over
floating point and are not given an integer evaluation (`none`). -/
def GExpr.eval : GExpr → Option Tensor
  | .leaf t => some t
  | .mulMat a b =>
      match a.eval, b.eval with
      | some ta, some tb =>
          some ⟨ta.ne1, tb.ne1, tb.ne2,
            fun i j k => ∑ c in Finset.range ta.ne0, ta.data c i k * tb.data c j k⟩
      | _, _ => none
  | .add a b =>
      match a.eval, b.eval with
      | some ta, some tb =>
          some ⟨ta.ne0, ta.ne1, ta.ne2, fun i j k => ta.data i j k + tb.data i j k⟩
      | _, _ => none
  | .softMax _ => none
  | .argmax _ => none
  | .view3d a n0 n1 n2 off =>
      match a.eval with
      | some ta => some ⟨n0, n1, n2, fun c i k => ta.data (off + c) i k⟩
      | none => none

/-- Embeds `ggml_mul_mat_pad` from `sense-voice-decoder.cc` (lines 48–66): if
dimension 0 is a multiple of `pad`, or `ne[0]/pad` is below the
minimum-benefit threshold `n_pad_req = 8`, fall back to a single
direct `ggml_mul_mat`; otherwise split both operands along dimension 0
into an aligned part of length `(ne0/pad)*pad` (offset 0) and a
remainder of length `ne0 % pad` (offset `(ne0/pad)*pad` elements), and
sum the two products. -/
def ggml_mul_mat_pad (x y : GExpr) (pad : Nat) : GExpr :=
  -- const int n_pad_req = 8
  if x.ne0 % pad = 0 ∨ x.ne0 / pad < 8 then
    .mulMat x y
  else
    -- x_0, y_0: aligned views at offset 0; x_1, y_1: remainder views at
    -- element offset x_0->ne[0] (the byte offset x_0->ne[0]*x_0->nb[0])
    .add
      (.mulMat (.view3d x ((x.ne0 / pad) * pad) x.ne1 x.ne2 0)
               (.view3d y ((y.ne0 / pad) * pad) y.ne1 y.ne2 0))
      (.mulMat (.view3d x (x.ne0 % pad) x.ne1 x.ne2 ((x.ne0 / pad) * pad))
               (.view3d y (y.ne0 % pad) y.ne1 y.ne2 ((y.ne0 / pad) * pad)))

/-- Splitting a range sum at `p`. -/
lemma sum_range_split (f : Nat → ℤ) (p r : Nat) :
    ∑ c in Finset.range (p + r), f c
      = (∑ c in Finset.range p, f c) + ∑ c in Finset.range r, f (p + c) := by
  induction r with
  | zero => simp
  | succ n ih =>
      rw [Nat.add_succ, Finset.sum_range_succ, ih, Finset.sum_range_succ, add_assoc]

/-- Successful evaluation yields a tensor with the statically computed shape. -/
lemma eval_shape (e : GExpr) (t : Tensor) (h : e.eval = some t) :
    t.ne0 = e.ne0 ∧ t.ne1 = e.ne1 ∧ t.ne2 = e.ne2 := by
  induction e generalizing t with
  | leaf t0 =>
      simp [GExpr.eval] at h
      subst h; exact ⟨rfl, rfl, rfl⟩
  | mulMat a b iha ihb =>
      simp only [GExpr.eval] at h
      cases ha : a.eval with
      | none => rw [ha] at h; simp at h
      | some ta =>
          cases hb : b.eval with
          | none => rw [ha, hb] at h; simp at h
          | some tb =>
              rw [ha, hb] at h
              simp only [Option.some.injEq] at h
              subst h
              exact ⟨(iha ta ha).2.1, (ihb tb hb).2.1, (ihb tb hb).2.2⟩
  | add a b iha ihb =>
      simp only [GExpr.eval] at h
      cases ha : a.eval with
      | none => rw [ha] at h; simp at h
      | some ta =>
          cases hb : b.eval with
          | none => rw [ha, hb] at h; simp at h
          | some tb =>
              rw [ha, hb] at h
              simp only [Option.some.injEq] at h
              subst h
              exact ⟨(iha ta ha).1, (iha ta ha).2.1, (iha ta ha).2.2⟩
  | softMax a ih => simp [GExpr.eval] at h
  | argmax a ih => simp [GExpr.eval] at h
  | view3d a n0 n1 n2 off ih =>
      simp only [GExpr.eval] at h
      cases ha : a.eval with
      | none => rw [ha] at h; simp at h
      | some ta =>
          rw [ha] at h
          simp only [Option.some.injEq] at h
          subst h
          exact ⟨rfl, rfl, rfl⟩

/-- Concrete operands exercising the split path of `ggml_mul_mat_pad`
(`300 % 32 = 12 ≠ 0` and `300 / 32 = 9 ≥ 8`). -/
def padLeafX : GExpr := .leaf ⟨300, 2, 1, fun c i _ => (c : ℤ) + i⟩

/-- Second concrete operand, same dimension 0. -/
def padLeafY : GExpr := .leaf ⟨300, 3, 1, fun c j _ => (c : ℤ) * j + 1⟩

/-- Concrete operands taking the fallback path (`64 % 32 = 0`). -/
def fbLeafX : GExpr := .leaf ⟨64, 2, 1, fun c i _ => (c : ℤ) - i⟩

/-- Second fallback operand. -/
def fbLeafY : GExpr := .leaf ⟨64, 3, 1, fun c j _ => (c : ℤ) + j⟩

/-- C3: for all operands `X`, `Y` (of equal dimension 0, as `ggml_mul_mat`
requires) and every positive alignment `pad`, `ggml_mul_mat_pad` denotes
exactly the direct product `X·Y` over exact arithmetic, with the same
output shape: on the split path the aligned views of length
`(n0/pad)*pad` and the remainder views of length `n0 % pad` are
multiplied independently and the two products summed elementwise. -/
theorem C3_mul_mat_pad_equivalent (x y : GExpr) (pad : Nat)
    (hpad : 0 < pad) (hne : x.ne0 = y.ne0) :
    (ggml_mul_mat_pad x y pad).eval = (GExpr.mulMat x y).eval
    ∧ (ggml_mul_mat_pad x y pad).ne0 = (GExpr.mulMat x y).ne0
    ∧ (ggml_mul_mat_pad x y pad).ne1 = (GExpr.mulMat x y).ne1
    ∧ (ggml_mul_mat_pad x y pad).ne2 = (GExpr.mulMat x y).ne2 := by
  by_cases hc : x.ne0 % pad = 0 ∨ x.ne0 / pad < 8
  · unfold ggml_mul_mat_pad
    rw [if_pos hc]
    exact ⟨rfl, rfl, rfl, rfl⟩
  · unfold ggml_mul_mat_pad
    rw [if_neg hc]
    refine ⟨?_, rfl, rfl, rfl⟩
    cases hx : x.eval with
    | none => simp [GExpr.eval, hx]
    | some tx =>
      cases hy : y.eval with
      | none => simp [GExpr.eval, hx, hy]
      | some ty =>
        obtain ⟨htx0, htx1, htx2⟩ := eval_shape x tx hx
        obtain ⟨hty0, hty1, hty2⟩ := eval_shape y ty hy
        simp only [GExpr.eval, hx, hy, Option.some.injEq]
        refine Tensor.ext htx1.symm hty1.symm hty2.symm ?_
        funext i j k
        dsimp only
        have hpr : (x.ne0 / pad) * pad + x.ne0 % pad = x.ne0 :=
          Nat.div_add_mod' x.ne0 pad
        conv_rhs => rw [htx0, ← hpr]
        rw [sum_range_split (fun c => tx.data c i k * ty.data c j k)
              ((x.ne0 / pad) * pad) (x.ne0 % pad)]
        rw [← hne]
        simp [Nat.zero_add]

/-- C3 witness: the equivalence at concrete operands where the split
path is taken. -/
theorem C3_mul_mat_pad_equivalent_witness :
    (ggml_mul_mat_pad padLeafX padLeafY 32).eval = (GExpr.mulMat padLeafX padLeafY).eval
    ∧ (ggml_mul_mat_pad padLeafX padLeafY 32).ne0 = (GExpr.mulMat padLeafX padLeafY).ne0
    ∧ (ggml_mul_mat_pad padLeafX padLeafY 32).ne1 = (GExpr.mulMat padLeafX padLeafY).ne1
    ∧ (ggml_mul_mat_pad padLeafX padLeafY 32).ne2 = (GExpr.mulMat padLeafX padLeafY).ne2 :=
  C3_mul_mat_pad_equivalent padLeafX padLeafY 32 (by decide) rfl

/-- C4: when dimension 0 is a multiple of `pad`, or `ne0 / pad` is below
the threshold 8, `ggml_mul_mat_pad` is a single direct `ggml_mul_mat`
with no split; in particular a zero-length remainder (`ne0 % pad = 0`)
always takes the fallback and no second multiply is built. -/
theorem C4_mul_mat_pad_fallback (x y : GExpr) (pad : Nat)
    (h : x.ne0 % pad = 0 ∨ x.ne0 / pad < 8) :
    ggml_mul_mat_pad x y pad = GExpr.mulMat x y := by
  unfold ggml_mul_mat_pad
  rw [if_pos h]

/-- C4 witness: the fallback equality at concrete operands with
`ne0 = 64`, `pad = 32`, a zero-length remainder. -/
theorem C4_mul_mat_pad_fallback_witness :
    ggml_mul_mat_pad fbLeafX fbLeafY 32 = GExpr.mulMat fbLeafX fbLeafY :=
  C4_mul_mat_pad_fallback fbLeafX fbLeafY 32 (Or.inl (by decide))

/-- The op kind of a graph expression (mirrors `ggml_tensor->op`;
`leaf` stands for `GGML_OP_NONE`). -/
inductive GOp where
  | leaf
  | mul_mat
  | add
  | soft_max
  | argmax
  | view
deriving DecidableEq

/-- The op of an expression. -/
def GExpr.op : GExpr → GOp
  | .leaf _ => .leaf
  | .mulMat _ _ => .mul_mat
  | .add _ _ => .add
  | .softMax _ => .soft_max
  | .argmax _ => .argmax
  | .view3d _ _ _ _ _ => .view

/-- Post-order op-node list, as `ggml_build_forward_expand` produces it:
sources are visited before the node itself and tensors with no op
(leaves) are not graph nodes. The decoder graph is a chain with no
shared interior node, so the visited-set deduplication of
`ggml_visit_parents` never fires and the plain post-order walk is
exact. -/
def GExpr.nodeList : GExpr → List GExpr
  | .leaf t => []
  | .mulMat a b => a.nodeList ++ b.nodeList ++ [.mulMat a b]
  | .add a b => a.nodeList ++ b.nodeList ++ [.add a b]
  | .softMax a => a.nodeList ++ [.softMax a]
  | .argmax a => a.nodeList ++ [.argmax a]
  | .view3d a n0 n1 n2 off => a.nodeList ++ [.view3d a n0 n1 n2 off]

/-- The node ceiling `#define SENSEVOICE_DECODER_MAX_NODES 8` (line 33). -/
def SENSEVOICE_DECODER_MAX_NODES : Nat := 8

/-- A built `ggml_cgraph`: the node-capacity it was created with
(`ggml_new_graph_custom`), the op-node list (`gf->nodes`), the tensors
marked `ggml_set_output`, and the named tensors marked
`ggml_set_input` (searchable via `ggml_graph_get_tensor`). -/
structure Graph where
  size : Nat
  nodes : List GExpr
  outputs : List GExpr
  inputs : List (String × GExpr)

/-- Embeds `ggml_graph_get_tensor` restricted to the named input tensors. -/
def ggml_graph_get_tensor (g : Graph) (name : String) : Option GExpr :=
  (g.inputs.find? (fun p => p.1 = name)).map (fun p => p.2)

/-- ggml element types relevant to the encoder output (floating tensor
data produced by the encoder). -/
inductive GGType where
  | f32
  | f16
deriving DecidableEq

/-- Element size `ggml_type_size` in bytes. -/
def ggml_type_size : GGType → Nat
  | .f32 => 4
  | .f16 => 2

/-- The session's encoder-output tensor (`state.encoder_out`): a typed
2-d tensor `[hiddenDim, numFrames]`. -/
structure EncTensor where
  type : GGType
  ne0 : Nat
  ne1 : Nat
  data : Nat → Nat → ℤ

/-- Lift the encoder output to a 3-d tensor value (`ne2 = 1`). -/
def EncTensor.toTensor (t : EncTensor) : Tensor :=
  ⟨t.ne0, t.ne1, 1, fun a b _ => t.data a b⟩

/-- Backend kinds a scheduler can hold (`ggml_backend_is_cpu`
distinguishes the general-purpose CPU backend; the default build
compiles no BLAS/Metal branch). -/
inductive BackendKind where
  | cpu
  | gpu
  | accel
deriving DecidableEq

/-- A backend registered with the scheduler, with its worker thread
count (`ggml_backend_cpu_set_n_threads`). -/
structure Backend where
  kind : BackendKind
  n_threads : Nat
deriving DecidableEq

/-- The backend scheduler (`ggml_backend_sched_t`): registered backends
and whether a graph is currently allocated in its scratch arena. -/
structure Sched where
  backends : List Backend
  graph_allocated : Bool
deriving DecidableEq

/-- Embeds `ggml_backend_sched_reset`: deallocates the scheduler's scratch
state so the arena can be reused by the next graph. -/
def ggml_backend_sched_reset (s : Sched) : Sched :=
  { s with graph_allocated := false }

/-- The `ggml_status` of a synchronous graph execution. -/
inductive GGStatus where
  | alloc_failed
  | failed
  | success
  | aborted
deriving DecidableEq

/-- Modelled from the spec: the vocabulary table (`sense_voice_vocab`,
declared in a header outside the given slice) is an ordered mapping
from token id to token string; `id_to_token` is indexed by id, and a
lookup of an id outside the table yields the empty string (the
behavior of `std::map::operator[]` for an absent key). -/
structure sense_voice_vocab where
  id_to_token : List String

/-- Lookup `id_to_token[id]` as used at line 179. -/
def id_to_token_lookup (v : sense_voice_vocab) (id : ℤ) : String :=
  if h : 0 ≤ id ∧ id.toNat < v.id_to_token.length then
    v.id_to_token.get ⟨id.toNat, h.2⟩
  else
    ""

/-- The CTC output head parameters (`model->ctc_out_linear_weight`,
`model->ctc_out_linear_bias`): weight `[hiddenDim, vocabSize]`, bias
`[vocabSize]`. -/
structure sense_voice_model where
  ctc_out_linear_weight : Tensor
  ctc_out_linear_bias : Tensor

/-- The decode context: model parameters and vocabulary. -/
structure sense_voice_context where
  model : sense_voice_model
  vocab : sense_voice_vocab

/-- The decode session state: encoder output, published id buffer,
cumulative decode-time counter, and the decode scheduler
(`state.sched_decode.sched`). -/
structure sense_voice_state where
  encoder_out : EncTensor
  ids : List ℤ
  t_decode_us : ℤ
  sched : Sched

/-- Embeds `sense_voice_build_graph_ctc_decoder` (lines 74–106): builds the
fixed pipeline `mul_mat(weight, encoder_out) → add bias → soft_max →
argmax` in a graph of capacity `SENSEVOICE_DECODER_MAX_NODES`, marks
`encoder_out` as the named input and `probs`/`argmax_logit` as
outputs, and expands the graph from the arg-max node (the default,
non-Metal build uses the plain `ggml_mul_mat` at line 96). -/
def sense_voice_build_graph_ctc_decoder (ctx : sense_voice_context)
    (state : sense_voice_state) : Graph :=
  let encoder_out : GExpr := .leaf state.encoder_out.toTensor
  let cur : GExpr := .mulMat (.leaf ctx.model.ctc_out_linear_weight) encoder_out
  let cur2 : GExpr := .add cur (.leaf ctx.model.ctc_out_linear_bias)
  let probs : GExpr := .softMax cur2
  let argmax_logit : GExpr := .argmax probs
  { size := SENSEVOICE_DECODER_MAX_NODES
    nodes := argmax_logit.nodeList
    outputs := [probs, argmax_logit]
    inputs := [("encoder_out", encoder_out)] }

/-- Embeds `ggml_graph_compute_helper` (lines 108–134): sets the worker
thread count on every CPU backend registered with the scheduler, runs
the graph synchronously (the resulting `ggml_status` is an input of
the model, the execution engine being external), compares the status
against `GGML_STATUS_SUCCESS`, resets the scheduler, and returns the
comparison. -/
def ggml_graph_compute_helper (status : GGStatus) (sched : Sched)
    (graph : Graph) (n_threads : Nat) : Bool × Sched :=
  let sched' : Sched :=
    { sched with
      backends := sched.backends.map
        (fun b => if b.kind = BackendKind.cpu then { b with n_threads := n_threads } else b) }
  let t : Bool := decide (status = GGStatus.success)
  (t, ggml_backend_sched_reset sched')

/-- The external `ggml` arg-max kernel over one row: the first index in
`[0, n)` attaining the maximum of `f` (the kernel keeps an index and
replaces it only on a strictly greater value). -/
def argmaxIdx (f : Nat → ℤ) (n : Nat) : Nat :=
  (List.range n).foldl (fun best c => if f best < f c then c else best) 0

/-- The token-printing loop of `sense_voice_decode_internal`
(lines 177–182): each id is rendered in order, skipping the CTC blank
id 0; the rendered text is the concatenation of the printed tokens. -/
def render_ids (v : sense_voice_vocab) (ids : List ℤ) : String :=
  ids.foldl (fun acc id => if id = 0 then acc else acc ++ id_to_token_lookup v id) ""

/-- Observable events of one decode call, in order of occurrence:
graph construction, scheduler graph allocation
(`ggml_backend_sched_alloc_graph`), the input copy
(`ggml_backend_tensor_set` with its byte count), synchronous execution
(`ggml_graph_compute_helper`), and the read-out of the terminal node. -/
inductive DEvent where
  | graphBuild
  | graphAlloc (ok : Bool)
  | tensorSet (name : String) (nbytes : Nat)
  | graphCompute (ok : Bool)
  | readOutput
deriving DecidableEq

/-- Outcomes of the external execution engine for one decode call:
whether scheduler graph allocation succeeds, the `ggml_status` of the
synchronous execution, the elapsed wall-clock microseconds
(`ggml_time_us()` end minus start), and the contents the backend
computed for the soft-max output tensor (`probs`), column `j` holding
frame `j` (the projection/soft-max kernels are external; the arg-max
kernel consuming this data is `argmaxIdx`). -/
structure DecodeEnv where
  allocOk : Bool
  computeStatus : GGStatus
  elapsed_us : ℤ
  probsData : Nat → Nat → ℤ

/-- Result of one decode call: the returned flag, the session state
after the call, the event trace, and the text emitted via `printf`
(empty on failure — the failing paths return before the print loop). -/
structure DecodeResult where
  ok : Bool
  state : sense_voice_state
  events : List DEvent
  output : String

/-- Embeds `sense_voice_decode_internal` (lines 136–190): builds the decoder
graph; returns `false` on allocation failure; copies the session's
encoder output into the graph's `encoder_out` input with byte count
`ggml_nelements(encoder_out) * sizeof(float)`; runs
`ggml_graph_compute_helper` and returns `false` on non-success;
otherwise reads the terminal graph node (`gf->nodes[gf->n_nodes-1]`,
the arg-max over `probs`, of length `argmax_logit->ne[0]`), replaces
`state.ids` with it, prints the non-blank tokens and a newline, and
adds the elapsed time to `state.t_decode_us`. The early returns at
lines 157 and 170 skip both the print loop and the timer update. -/
def sense_voice_decode_internal (env : DecodeEnv) (ctx : sense_voice_context)
    (state : sense_voice_state) (n_threads : Nat) : DecodeResult :=
  let gf := sense_voice_build_graph_ctc_decoder ctx state
  if env.allocOk = false then
    { ok := false
      state := state
      events := [.graphBuild, .graphAlloc false]
      output := "" }
  else
    let schedA : Sched := { state.sched with graph_allocated := true }
    let nbytes : Nat :=
      (match ggml_graph_get_tensor gf "encoder_out" with
       | some t => t.nelements
       | none => 0) * 4
    let hr := ggml_graph_compute_helper env.computeStatus schedA gf n_threads
    if hr.1 = false then
      { ok := false
        state := { state with sched := hr.2 }
        events := [.graphBuild, .graphAlloc true, .tensorSet "encoder_out" nbytes,
                   .graphCompute false]
        output := "" }
    else
      match gf.nodes.getLast? with
      | some (GExpr.argmax p) =>
          let ids : List ℤ := (List.range (GExpr.argmax p).ne0).map
            (fun j => ((argmaxIdx (fun c => env.probsData c j) p.ne0 : Nat) : ℤ))
          { ok := true
            state := { state with
                       ids := ids
                       t_decode_us := state.t_decode_us + env.elapsed_us
                       sched := hr.2 }
            events := [.graphBuild, .graphAlloc true, .tensorSet "encoder_out" nbytes,
                       .graphCompute true, .readOutput]
            output := render_ids ctx.vocab ids ++ "\n" }
      | _ =>
          -- unreachable: the built graph always ends in the arg-max node
          { ok := false
            state := { state with sched := hr.2 }
            events := [.graphBuild, .graphAlloc true, .tensorSet "encoder_out" nbytes,
                       .graphCompute true]
            output := "" }

/-- C5: for every model and session state the decoder graph consists of
exactly the four pipeline nodes — projection matmul, bias add,
soft-max, arg-max — staying under the `SENSEVOICE_DECODER_MAX_NODES`
capacity of 8; the last-appended node is the arg-max node and both
`probs` and the arg-max ids tensor are marked as graph outputs. -/
theorem C5_graph_four_nodes (ctx : sense_voice_context) (state : sense_voice_state) :
    (sense_voice_build_graph_ctc_decoder ctx state).nodes.map GExpr.op
        = [GOp.mul_mat, GOp.add, GOp.soft_max, GOp.argmax]
    ∧ (sense_voice_build_graph_ctc_decoder ctx state).nodes.length = 4
    ∧ (sense_voice_build_graph_ctc_decoder ctx state).size = SENSEVOICE_DECODER_MAX_NODES
    ∧ (sense_voice_build_graph_ctc_decoder ctx state).nodes.length
        ≤ (sense_voice_build_graph_ctc_decoder ctx state).size
    ∧ ∃ p, (sense_voice_build_graph_ctc_decoder ctx state).nodes.getLast?
            = some (GExpr.argmax p)
        ∧ p ∈ (sense_voice_build_graph_ctc_decoder ctx state).outputs
        ∧ GExpr.argmax p ∈ (sense_voice_build_graph_ctc_decoder ctx state).outputs := by
  refine ⟨rfl, rfl, rfl, ?_, ?_⟩
  · show (4 : Nat) ≤ 8
    norm_num
  · refine ⟨_, rfl, ?_, ?_⟩
    · exact List.mem_cons_self _ _
    · exact List.mem_cons_of_mem _ (List.mem_cons_self _ _)

/-- C6: for every scheduler, graph and thread count,
`ggml_graph_compute_helper` returns `true` exactly when the execution
status is `GGML_STATUS_SUCCESS`, and on every call — success or
failure — the scheduler's scratch/allocation state is reset before
returning. -/
theorem C6_compute_helper_status_and_reset (status : GGStatus) (sched : Sched)
    (graph : Graph) (n_threads : Nat) :
    ((ggml_graph_compute_helper status sched graph n_threads).1 = true
        ↔ status = GGStatus.success)
    ∧ (ggml_graph_compute_helper status sched graph n_threads).2.graph_allocated = false := by
  constructor
  · simp [ggml_graph_compute_helper]
  · rfl

/-- C8 fixture: vocabulary mapping id 5 to `"A"` and id 7 to `"B"`. -/
def vocabAB : sense_voice_vocab := ⟨["", "", "", "", "", "A", "", "B"]⟩

/-- The print loop with an arbitrary accumulator prepended. -/
lemma render_ids_foldl (v : sense_voice_vocab) (ids : List ℤ) (acc : String) :
    ids.foldl (fun a id => if id = 0 then a else a ++ id_to_token_lookup v id) acc
      = acc ++ String.join ((ids.filter (fun i => i != 0)).map (id_to_token_lookup v)) := by
  induction ids generalizing acc with
  | nil => simp [String.join, String.append_empty]
  | cons x xs ih =>
      by_cases hx : x = 0
      · simp only [List.foldl_cons, List.filter_cons, hx]
        rw [ih]
        norm_num
      · simp only [List.foldl_cons, List.filter_cons, hx]
        rw [ih]
        have hxb : (x != 0) = true := by simpa using hx
        rw [hxb]
        simp only [if_true, List.map_cons]
        have : String.join (id_to_token_lookup v x ::
            (List.map (id_to_token_lookup v) (xs.filter (fun i => i != 0))))
            = id_to_token_lookup v x
              ++ String.join (List.map (id_to_token_lookup v) (xs.filter (fun i => i != 0))) := by
          apply String.ext
          simp [String.data_join, String.data_append]
        rw [this]
        simp [String.append_assoc]

/-- C8: the rendered text of a decoded id sequence is the in-order
concatenation of the vocabulary tokens of exactly the non-zero ids
(id 0, the CTC blank, is filtered out); in particular for ids
`[0, 5, 0, 7, 0]` with id 5 ↦ `"A"` and id 7 ↦ `"B"` the rendered
text is `"AB"`. -/
theorem C8_render_filters_blanks (v : sense_voice_vocab) (ids : List ℤ) :
    render_ids v ids
        = String.join ((ids.filter (fun i => i != 0)).map (id_to_token_lookup v))
    ∧ render_ids vocabAB [0, 5, 0, 7, 0] = "AB" := by
  constructor
  · rw [render_ids, render_ids_foldl]
    exact String.empty_append _
  · rfl

/-- The scheduler state after a decode call that reached execution:
CPU backends configured to the requested thread count, scratch state
reset. -/
def schedAfter (sched : Sched) (n_threads : Nat) : Sched :=
  ⟨sched.backends.map
     (fun b => if b.kind = BackendKind.cpu then { b with n_threads := n_threads } else b),
   false⟩

/-- Byte count of the input copy:
`ggml_nelements(encoder_out) * sizeof(float)` (line 166). -/
def decodeNBytes (state : sense_voice_state) : Nat :=
  state.encoder_out.ne0 * state.encoder_out.ne1 * 1 * 4

/-- The id sequence a successful decode publishes: per frame `j`, the
arg-max over the vocabulary axis (of size `ctc_out_linear_weight.ne1`)
of the backend-computed `probs` column. -/
def decodedIds (env : DecodeEnv) (ctx : sense_voice_context)
    (state : sense_voice_state) : List ℤ :=
  (List.range state.encoder_out.ne1).map
    (fun j => ((argmaxIdx (fun c => env.probsData c j)
                  ctx.model.ctc_out_linear_weight.ne1 : Nat) : ℤ))

/-- Decode on allocation failure: early return at line 157. -/
lemma decode_alloc_fail (env : DecodeEnv) (ctx : sense_voice_context)
    (state : sense_voice_state) (n : Nat) (h : env.allocOk = false) :
    sense_voice_decode_internal env ctx state n
      = ⟨false, state, [.graphBuild, .graphAlloc false], ""⟩ := by
  simp [sense_voice_decode_internal, h]

/-- Decode on execution failure: early return at line 170. -/
lemma decode_exec_fail (env : DecodeEnv) (ctx : sense_voice_context)
    (state : sense_voice_state) (n : Nat) (ha : env.allocOk = true)
    (hs : env.computeStatus ≠ GGStatus.success) :
    sense_voice_decode_internal env ctx state n
      = ⟨false, { state with sched := schedAfter state.sched n },
         [.graphBuild, .graphAlloc true, .tensorSet "encoder_out" (decodeNBytes state),
          .graphCompute false], ""⟩ := by
  simp [sense_voice_decode_internal, ha, ggml_graph_compute_helper, hs,
        ggml_backend_sched_reset, schedAfter, decodeNBytes,
        ggml_graph_get_tensor, sense_voice_build_graph_ctc_decoder,
        GExpr.nelements, GExpr.ne0, GExpr.ne1, GExpr.ne2, EncTensor.toTensor]

/-- Decode on success: the full pipeline of lines 150–189. -/
lemma decode_success (env : DecodeEnv) (ctx : sense_voice_context)
    (state : sense_voice_state) (n : Nat) (ha : env.allocOk = true)
    (hs : env.computeStatus = GGStatus.success) :
    sense_voice_decode_internal env ctx state n
      = ⟨true,
         ({ state with
            ids := decodedIds env ctx state,
            t_decode_us := state.t_decode_us + env.elapsed_us,
            sched := schedAfter state.sched n }),
         [.graphBuild, .graphAlloc true, .tensorSet "encoder_out" (decodeNBytes state),
          .graphCompute true, .readOutput],
         render_ids ctx.vocab (decodedIds env ctx state) ++ "\n"⟩ := by
  simp [sense_voice_decode_internal, ha, ggml_graph_compute_helper, hs,
        ggml_backend_sched_reset, schedAfter, decodeNBytes, decodedIds,
        ggml_graph_get_tensor, sense_voice_build_graph_ctc_decoder,
        GExpr.nodeList, List.getLast?, GExpr.nelements, GExpr.ne0, GExpr.ne1,
        GExpr.ne2, EncTensor.toTensor]

/-- The decode call succeeds exactly when allocation succeeds and
execution reports success. -/
lemma decode_ok_iff (env : DecodeEnv) (ctx : sense_voice_context)
    (state : sense_voice_state) (n : Nat) :
    (sense_voice_decode_internal env ctx state n).ok = true
      ↔ (env.allocOk = true ∧ env.computeStatus = GGStatus.success) := by
  by_cases ha : env.allocOk = true
  · by_cases hs : env.computeStatus = GGStatus.success
    · rw [decode_success env ctx state n ha hs]
      simp [ha, hs]
    · rw [decode_exec_fail env ctx state n ha hs]
      simp [hs]
  · have ha' : env.allocOk = false := by simpa using ha
    rw [decode_alloc_fail env ctx state n ha']
    simp [ha']

/-- Concrete model: hidden dimension 4, vocabulary size 2. -/
def model0 : sense_voice_model where
  ctc_out_linear_weight := ⟨4, 2, 1, fun c i _ => (c : ℤ) + i⟩
  ctc_out_linear_bias := ⟨2, 1, 1, fun c _ _ => (c : ℤ)⟩

/-- Concrete decode context over `model0` and a 2-token vocabulary. -/
def ctx0 : sense_voice_context where
  model := model0
  vocab := ⟨["<blk>", "a"]⟩

/-- Concrete session: f32 encoder output of 3 frames, one previously
published id, 100 µs on the decode timer. -/
def st0 : sense_voice_state where
  encoder_out := ⟨GGType.f32, 4, 3, fun c j => (c : ℤ) * j⟩
  ids := [9]
  t_decode_us := 100
  sched := ⟨[⟨BackendKind.cpu, 1⟩], false⟩

/-- Environment of a fully successful decode call taking 7 µs. -/
def envOk : DecodeEnv where
  allocOk := true
  computeStatus := GGStatus.success
  elapsed_us := 7
  probsData := fun c j => - (c : ℤ) + j

/-- Environment where graph execution reports `GGML_STATUS_FAILED`. -/
def envExecFail : DecodeEnv where
  allocOk := true
  computeStatus := GGStatus.failed
  elapsed_us := 5
  probsData := fun _ _ => 0

/-- Environment where scheduler graph allocation fails. -/
def envAllocFail : DecodeEnv where
  allocOk := false
  computeStatus := GGStatus.success
  elapsed_us := 5
  probsData := fun _ _ => 0

/-- C1 counterexample: a failing decode call (execution reports
failure, elapsed time 5 µs) returns `false` and leaves `t_decode_us`
exactly unchanged — the counter does not increase, refuting the claim
that it is updated and strictly increases after any call. The early
returns at lines 157 and 170 precede the `t_decode_us` update at
line 187. -/
theorem C1_counterexample :
    (sense_voice_decode_internal envExecFail ctx0 st0 4).ok = false
    ∧ (sense_voice_decode_internal envExecFail ctx0 st0 4).state.t_decode_us
        = st0.t_decode_us
    ∧ ¬ (st0.t_decode_us
          < (sense_voice_decode_internal envExecFail ctx0 st0 4).state.t_decode_us) := by
  rw [decode_exec_fail envExecFail ctx0 st0 4 rfl (by decide)]
  exact ⟨rfl, rfl, lt_irrefl _⟩

/-- C1 (amended): the cumulative decode-time counter is updated by the
elapsed time of the call only when the call returns success; on any
failure path (allocation or execution) the call returns early with the
counter unchanged — so the counter strictly increases exactly after
successful calls with positive elapsed time. -/
theorem C1_timer_updated_on_success_only (env : DecodeEnv) (ctx : sense_voice_context)
    (state : sense_voice_state) (n : Nat) :
    ((sense_voice_decode_internal env ctx state n).ok = true →
       (sense_voice_decode_internal env ctx state n).state.t_decode_us
         = state.t_decode_us + env.elapsed_us)
    ∧ ((sense_voice_decode_internal env ctx state n).ok = false →
       (sense_voice_decode_internal env ctx state n).state.t_decode_us
         = state.t_decode_us)
    ∧ (0 < env.elapsed_us → (sense_voice_decode_internal env ctx state n).ok = true →
       state.t_decode_us < (sense_voice_decode_internal env ctx state n).state.t_decode_us) := by
  by_cases ha : env.allocOk = true
  · by_cases hs : env.computeStatus = GGStatus.success
    · rw [decode_success env ctx state n ha hs]
      refine ⟨fun _ => rfl, fun hcon => by simp at hcon, fun he _ => ?_⟩
      exact lt_add_of_pos_right _ he
    · rw [decode_exec_fail env ctx state n ha hs]
      exact ⟨fun hcon => by simp at hcon, fun _ => rfl, fun _ hcon => by simp at hcon⟩
  · have ha' : env.allocOk = false := by simpa using ha
    rw [decode_alloc_fail env ctx state n ha']
    exact ⟨fun hcon => by simp at hcon, fun _ => rfl, fun _ hcon => by simp at hcon⟩

/-- C1 witness: on the concrete successful call the counter advances
from 100 by the elapsed 7 µs, hence strictly increases. -/
theorem C1_timer_witness :
    (sense_voice_decode_internal envOk ctx0 st0 4).state.t_decode_us
      = st0.t_decode_us + envOk.elapsed_us
    ∧ st0.t_decode_us < (sense_voice_decode_internal envOk ctx0 st0 4).state.t_decode_us :=
  ⟨(C1_timer_updated_on_success_only envOk ctx0 st0 4).1 (by rfl),
   (C1_timer_updated_on_success_only envOk ctx0 st0 4).2.2 (by decide) (by rfl)⟩

/-- C2: when graph allocation fails or graph execution reports
non-success, the decode call returns `false` and the session's id
buffer is left exactly in its pre-call state — `state.ids` is only
assigned after a successful execution. -/
theorem C2_failure_publishes_no_ids (env : DecodeEnv) (ctx : sense_voice_context)
    (state : sense_voice_state) (n : Nat)
    (h : env.allocOk = false ∨ env.computeStatus ≠ GGStatus.success) :
    (sense_voice_decode_internal env ctx state n).ok = false
    ∧ (sense_voice_decode_internal env ctx state n).state.ids = state.ids := by
  rcases h with h | h
  · rw [decode_alloc_fail env ctx state n h]
    exact ⟨rfl, rfl⟩
  · by_cases ha : env.allocOk = true
    · rw [decode_exec_fail env ctx state n ha h]
      exact ⟨rfl, rfl⟩
    · have ha' : env.allocOk = false := by simpa using ha
      rw [decode_alloc_fail env ctx state n ha']
      exact ⟨rfl, rfl⟩

/-- C2 witness: the concrete execution-failure call returns `false`
and keeps the previous id buffer `[9]`. -/
theorem C2_failure_witness :
    (sense_voice_decode_internal envExecFail ctx0 st0 4).ok = false
    ∧ (sense_voice_decode_internal envExecFail ctx0 st0 4).state.ids = st0.ids :=
  C2_failure_publishes_no_ids envExecFail ctx0 st0 4 (Or.inr (by decide))

/-- C7: in every successful decode call with an f32 encoder output the
encoder data is copied into the graph tensor named `encoder_out` with
byte count equal to element count times element size, and the copy
event lies strictly between the (successful) allocation event and the
(successful) execution event. -/
theorem C7_input_copy_after_alloc_before_exec (env : DecodeEnv)
    (ctx : sense_voice_context) (state : sense_voice_state) (n : Nat)
    (htype : state.encoder_out.type = GGType.f32)
    (hok : (sense_voice_decode_internal env ctx state n).ok = true) :
    ∃ i j k : Nat, i < j ∧ j < k
      ∧ (sense_voice_decode_internal env ctx state n).events[i]?
          = some (DEvent.graphAlloc true)
      ∧ (sense_voice_decode_internal env ctx state n).events[j]?
          = some (DEvent.tensorSet "encoder_out"
              (state.encoder_out.ne0 * state.encoder_out.ne1
                * ggml_type_size state.encoder_out.type))
      ∧ (sense_voice_decode_internal env ctx state n).events[k]?
          = some (DEvent.graphCompute true) := by
  obtain ⟨ha, hs⟩ := (decode_ok_iff env ctx state n).mp hok
  rw [decode_success env ctx state n ha hs]
  refine ⟨1, 2, 3, by norm_num, by norm_num, rfl, ?_, rfl⟩
  simp [decodeNBytes, htype, ggml_type_size, Nat.mul_comm]

/-- C7 witness: the ordered alloc/copy/exec events of the concrete
successful call, with the 4·3·4 = 48-byte copy. -/
theorem C7_input_copy_witness :
    ∃ i j k : Nat, i < j ∧ j < k
      ∧ (sense_voice_decode_internal envOk ctx0 st0 4).events[i]?
          = some (DEvent.graphAlloc true)
      ∧ (sense_voice_decode_internal envOk ctx0 st0 4).events[j]?
          = some (DEvent.tensorSet "encoder_out"
              (st0.encoder_out.ne0 * st0.encoder_out.ne1
                * ggml_type_size st0.encoder_out.type))
      ∧ (sense_voice_decode_internal envOk ctx0 st0 4).events[k]?
          = some (DEvent.graphCompute true) :=
  C7_input_copy_after_alloc_before_exec envOk ctx0 st0 4 rfl (by rfl)

/-- The first-maximum fold stays inside the index bound. -/
lemma foldl_max_lt (f : Nat → ℤ) (n : Nat) (l : List Nat) (b : Nat)
    (hb : b < n) (hl : ∀ c ∈ l, c < n) :
    l.foldl (fun best c => if f best < f c then c else best) b < n := by
  induction l generalizing b with
  | nil => exact hb
  | cons x xs ih =>
      simp only [List.foldl_cons]
      refine ih _ ?_ (fun c hc => hl c (List.mem_cons_of_mem _ hc))
      by_cases hfx : f b < f x
      · rw [if_pos hfx]
        exact hl x (List.mem_cons_self x xs)
      · rw [if_neg hfx]
        exact hb

/-- The arg-max kernel yields an index in `[0, n)` whenever `n > 0`. -/
lemma argmaxIdx_lt (f : Nat → ℤ) (n : Nat) (h : 0 < n) : argmaxIdx f n < n := by
  unfold argmaxIdx
  exact foldl_max_lt f n _ 0 h (fun c hc => List.mem_range.mp hc)

/-- C9: in every successful decode call with a non-empty vocabulary
axis, every published id is a frame arg-max in `[0, vocabSize)`
(`vocabSize = ctc_out_linear_weight.ne1`), so when the vocabulary
table has at least `vocabSize` entries the per-id token lookup is in
bounds and never fails. -/
theorem C9_argmax_ids_in_range (env : DecodeEnv) (ctx : sense_voice_context)
    (state : sense_voice_state) (n : Nat)
    (hv : 0 < ctx.model.ctc_out_linear_weight.ne1)
    (hlen : ctx.model.ctc_out_linear_weight.ne1 ≤ ctx.vocab.id_to_token.length)
    (hok : (sense_voice_decode_internal env ctx state n).ok = true) :
    ((sense_voice_decode_internal env ctx state n).state.ids).all
      (fun id => decide (0 ≤ id)
        && decide (id.toNat < ctx.model.ctc_out_linear_weight.ne1)
        && (ctx.vocab.id_to_token[id.toNat]?).isSome) = true := by
  obtain ⟨ha, hs⟩ := (decode_ok_iff env ctx state n).mp hok
  rw [decode_success env ctx state n ha hs]
  rw [List.all_eq_true]
  intro id hid
  simp only [decodedIds, List.mem_map, List.mem_range] at hid
  obtain ⟨j, hj, rfl⟩ := hid
  have hlt := argmaxIdx_lt (fun c => env.probsData c j) _ hv
  simp only [Bool.and_eq_true, decide_eq_true_eq]
  have htn : ((argmaxIdx (fun c => env.probsData c j)
      ctx.model.ctc_out_linear_weight.ne1 : Nat) : ℤ).toNat
        < ctx.model.ctc_out_linear_weight.ne1 := by
    simpa using hlt
  refine ⟨⟨Int.ofNat_nonneg _, htn⟩, ?_⟩
  rw [List.getElem?_eq_getElem (lt_of_lt_of_le htn hlen)]
  rfl

/-- C9 witness: the ids of the concrete successful call are all inside
the vocabulary of size 2 and every lookup succeeds. -/
theorem C9_argmax_ids_witness :
    ((sense_voice_decode_internal envOk ctx0 st0 4).state.ids).all
      (fun id => decide (0 ≤ id)
        && decide (id.toNat < ctx0.model.ctc_out_linear_weight.ne1)
        && (ctx0.vocab.id_to_token[id.toNat]?).isSome) = true :=
  C9_argmax_ids_in_range envOk ctx0 st0 4 (by decide) (by decide) (by rfl)

/-- C10: whenever the decode call reaches the input copy (allocation
succeeded), the byte count of the copy is element count times
`sizeof(float)` — `ne0 * ne1 * 1 * 4` — independent of the encoder
output's declared element type; for a non-empty tensor that count
equals element count times the actual element size exactly when the
type is f32. -/
theorem C10_copy_uses_sizeof_float (env : DecodeEnv) (ctx : sense_voice_context)
    (state : sense_voice_state) (n : Nat) (h : env.allocOk = true) :
    DEvent.tensorSet "encoder_out" (state.encoder_out.ne0 * state.encoder_out.ne1 * 1 * 4)
        ∈ (sense_voice_decode_internal env ctx state n).events
    ∧ (0 < state.encoder_out.ne0 * state.encoder_out.ne1 →
        ((state.encoder_out.ne0 * state.encoder_out.ne1 * 1 * 4
            = state.encoder_out.ne0 * state.encoder_out.ne1
                * ggml_type_size state.encoder_out.type)
          ↔ state.encoder_out.type = GGType.f32)) := by
  constructor
  · by_cases hs : env.computeStatus = GGStatus.success
    · rw [decode_success env ctx state n h hs]
      simp [decodeNBytes]
    · rw [decode_exec_fail env ctx state n h hs]
      simp [decodeNBytes]
  · intro hpos
    cases htype : state.encoder_out.type
    · simp [ggml_type_size, Nat.mul_comm]
    · simp only [ggml_type_size]
      constructor
      · intro he
        exfalso
        revert hpos he
        generalize state.encoder_out.ne0 * state.encoder_out.ne1 = m
        intro hpos he
        omega
      · intro he
        exact absurd he (by simp)

/-- C10 witness: on the concrete call the copy is 4·3·1·4 = 48 bytes,
which matches element count times element size precisely because the
encoder output is f32. -/
theorem C10_copy_witness :
    DEvent.tensorSet "encoder_out" (st0.encoder_out.ne0 * st0.encoder_out.ne1 * 1 * 4)
        ∈ (sense_voice_decode_internal envOk ctx0 st0 4).events
    ∧ ((st0.encoder_out.ne0 * st0.encoder_out.ne1 * 1 * 4
          = st0.encoder_out.ne0 * st0.encoder_out.ne1
              * ggml_type_size st0.encoder_out.type)
        ↔ st0.encoder_out.type = GGType.f32) :=
  ⟨(C10_copy_uses_sizeof_float envOk ctx0 st0 4 rfl).1,
   (C10_copy_uses_sizeof_float envOk ctx0 st0 4 rfl).2 (by decide)⟩

end SV
